import Mathlib

/-! Verification of the message-visibility filter and zrefix extraction module
(`synapse/overra.py`): a shallow embedding of the Python code into Lean,
together with theorems settling the specification claims.

Python values occurring in events are modelled by the inductive type `JVal`
(strings, integers, booleans, `None`, lists, dicts-as-association-lists).
Python dicts preserve insertion order and have unique keys; they are modelled
as association lists with `lookup'` (first match) and `dset`
(in-place update / append).  Python exceptions are modelled by `PyErr`;
functions that can raise return `Except PyErr _`, and `set_zrefix`, which
swallows every exception and leaves the event in its last reached state,
is modelled as a total function returning that state.
-/

set_option autoImplicit false

namespace Overra

/-- A Python/JSON value as it occurs in event dictionaries. -/
inductive JVal where
  | str : String → JVal
  | num : Int → JVal
  | bool : Bool → JVal
  | null : JVal
  | arr : List JVal → JVal
  | obj : List (String × JVal) → JVal

/-- Python truthiness (`bool(x)`): empty strings/lists/dicts, `0`, `False`
and `None` are falsy, everything else is truthy. -/
def JVal.truthy : JVal → Bool
  | .str s => !(s == "")
  | .num n => !(n == 0)
  | .bool b => b
  | .null => false
  | .arr l => !l.isEmpty
  | .obj l => !l.isEmpty

/-- Python `x == s` where `s` is a string: true only for an equal string
(numbers, booleans, lists, dicts and `None` never equal a string). -/
def JVal.eqStr : JVal → String → Bool
  | .str a, b => a == b
  | _, _ => false

/-- Python `x == n` where `n` is an integer: true for an equal integer, and
for a boolean whose numeric value equals `n` (`True == 1` in Python). -/
def JVal.eqNum : JVal → Int → Bool
  | .num a, b => a == b
  | .bool a, b => (if a then (1 : Int) else 0) == b
  | _, _ => false

/-- First-match association-list lookup: `d[k]` / `d.get(k)` on a Python
dict (Python dicts have unique keys, so first match is the only match). -/
def lookup' : List (String × JVal) → String → Option JVal
  | [], _ => none
  | (k', v') :: rest, k => if k' = k then some v' else lookup' rest k

/-- Python dict assignment `d[k] = v`: replaces the value at an existing key
in place (keeping its position), otherwise appends the new pair. -/
def dset : List (String × JVal) → String → JVal → List (String × JVal)
  | [], k, v => [(k, v)]
  | (k', v') :: rest, k, v =>
    if k' = k then (k, v) :: rest else (k', v') :: dset rest k v

/-- Python exception kinds raised by the modelled code. -/
inductive PyErr where
  | keyError : String → PyErr
  | attrError : PyErr
  | typeError : PyErr

/-- Test whether `p` is an initial segment of `l`. -/
def leadsWith : List Char → List Char → Bool
  | [], _ => true
  | _ :: _, [] => false
  | a :: as, b :: bs => a == b && leadsWith as bs

/-- Leftmost split: `splitOnceChars p l = some (pre, post)` when pattern `p`
occurs in `l`, with `pre` the characters before the first occurrence and
`post` the characters after it; `none` when `p` does not occur. -/
def splitOnceChars (p : List Char) : List Char → Option (List Char × List Char)
  | [] => if p.isEmpty then some ([], []) else none
  | c :: rest =>
    if leadsWith p (c :: rest) then some ([], (c :: rest).drop p.length)
    else
      match splitOnceChars p rest with
      | some (pre, post) => some (c :: pre, post)
      | none => none

/-- Python `s.split(delim, 1)`: two parts around the first occurrence of the
delimiter when it occurs, otherwise the one-element list `[s]`. -/
def splitOnce (s delim : String) : List String :=
  match splitOnceChars delim.toList s.toList with
  | some (pre, post) => [String.mk pre, String.mk post]
  | none => [s]

/-- The whitespace characters removed by Python `str.strip()` (the ASCII
ones; the module only ever strips ASCII text). -/
def pyIsSpace (c : Char) : Bool :=
  c == ' ' || c == '\t' || c == '\n' || c == '\r' || c == '\x0b' || c == '\x0c'

/-- Python `s.strip()`: remove leading and trailing whitespace. -/
def pyStrip (s : String) : String :=
  String.mk (((s.toList.dropWhile pyIsSpace).reverse.dropWhile pyIsSpace).reverse)

/-- Python `s in t` for strings: substring containment. -/
def containsSub (needle hay : String) : Bool :=
  (splitOnceChars needle.toList hay.toList).isSome

/-- Python `user_id in x`: membership in a list (element equality), in a dict
(key membership) or in a string (substring); a `TypeError` otherwise. -/
def pyIn (uid : String) : JVal → Except PyErr Bool
  | .arr l => .ok (l.any (fun v => v.eqStr uid))
  | .obj l => .ok (l.any (fun p => p.1 == uid))
  | .str s => .ok (containsSub uid s)
  | _ => .error .typeError

/-- The Python constant `KEY + '_metadata'`, the restriction-metadata key under `unsigned`,
derived from the configured environment key. -/
def METADATA_KEY (key : String) : String := key ++ "_metadata"

/-- The Python constant `KEY + '_ai_response'`, the AI-response marker key under `unsigned`. -/
def AI_RESPONSE_KEY (key : String) : String := key ++ "_ai_response"

/-- The `visible_to` field name inside the restriction metadata. -/
def VISIBLE_TO : String := "visible_to"

/-- The zrefix delimiter, the unicode character `⁂` (U+2042). -/
def ZREFIX_DELIMITER : String := "⁂"

/-- Embedding of `is_visible(event, user_id)` from `overra.py`, line by line.  The admin set
of a room (`get_channel_admins(event['room_id'])`, a database lookup) is
abstracted as the function argument `admins`; the configured environment
key is the argument `key`.  `user_id = None` is `none`.  A raised exception
is an `.error` result; otherwise the returned Python boolean is `.ok _`.
-/
def is_visible (admins : JVal → List String) (key : String)
    (event : List (String × JVal)) (user_id : Option String) :
    Except PyErr Bool :=
  -- `if not event: return False`
  if event.isEmpty then .ok false
  else
    -- `if event['type'] != 'm.room.message': return True`
    match lookup' event "type" with
    | none => .error (.keyError "type")
    | some ty =>
      if !(ty.eqStr "m.room.message") then .ok true
      else
        -- `metadata = event['unsigned'].get(METADATA_KEY, {})`
        -- `ai_response = event['unsigned'].get(AI_RESPONSE_KEY, {})`
        match lookup' event "unsigned" with
        | none => .error (.keyError "unsigned")
        | some (.obj u) =>
          let metadata := (lookup' u (METADATA_KEY key)).getD (.obj [])
          let ai_response := (lookup' u (AI_RESPONSE_KEY key)).getD (.obj [])
          -- `if not metadata and not ai_response: return True`
          if !metadata.truthy && !ai_response.truthy then .ok true
          else
            -- `if user_id is None: return False`
            match user_id with
            | none => .ok false
            | some uid =>
              -- `if user_id == event['sender']: return True`
              match lookup' event "sender" with
              | none => .error (.keyError "sender")
              | some sender =>
                if sender.eqStr uid then .ok true
                else
                  -- `if user_id in get_channel_admins(event['room_id']): ...`
                  match lookup' event "room_id" with
                  | none => .error (.keyError "room_id")
                  | some rid =>
                    if (admins rid).contains uid then .ok true
                    else
                      -- `if metadata and user_id in metadata.get(VISIBLE_TO, [])`
                      if metadata.truthy then
                        match metadata with
                        | .obj m =>
                          match pyIn uid ((lookup' m VISIBLE_TO).getD (.arr [])) with
                          | .ok true => .ok true
                          | .ok false => .ok false
                          | .error e => .error e
                        | _ => .error .attrError
                      else .ok false
        | some _ => .error .attrError

/-- Embedding of `get_channel_admins(room_id)` from `overra.py`.  The database query and the
`json.loads` decode are the external collaborator (a postgres round-trip):
the argument `rows` stands for the fetched result — `none` when no
`m.room.power_levels` record exists for the room (`if not rows`), and
`some data` when one exists, with `data` the decoded `users` document, a
dict from user id to power level.  The function keeps exactly the user ids
whose role satisfies `role == 100`.
-/
def get_channel_admins (rows : Option (List (String × JVal))) : List String :=
  match rows with
  | none => []
  | some data => (data.filter (fun p => p.2.eqNum 100)).map (fun p => p.1)

/-- One pass of `re.sub(r'<.*?>', '', text)`: after a `<`, the non-greedy
match ends at the first `>`, and `.` cannot cross a newline, so the scan
succeeds iff a `>` occurs before any newline; on failure the regex engine
moves one character forward. -/
def afterGt : List Char → Option (List Char)
  | [] => none
  | c :: rest => if c == '>' then some rest
      else if c == '\n' then none else afterGt rest

/-- Fuelled scanner for `re.sub(r'<.*?>', '', text)`; each step consumes at
least one character, so fuel equal to the input length is sufficient. -/
def stripTagsAux : Nat → List Char → List Char
  | _, [] => []
  | 0, l => l
  | fuel + 1, c :: rest =>
    if c == '<' then
      match afterGt rest with
      | some rest2 => stripTagsAux fuel rest2
      | none => c :: stripTagsAux fuel rest
    else c :: stripTagsAux fuel rest

/-- Compute `re.sub(r'<.*?>', '', s)` on a string. -/
def stripTagsStr (s : String) : String :=
  String.mk (stripTagsAux s.toList.length s.toList)

/-- Embedding of `strip_html_tags(text)` from `overra.py`: falsy input gives `''`; a
truthy string has tags removed and is stripped; a truthy non-string raises
`TypeError` inside `re.sub`. -/
def strip_html_tags (text : JVal) : Except PyErr String :=
  if !text.truthy then .ok ""
  else match text with
    | .str s => .ok (pyStrip (stripTagsStr s))
    | _ => .error .typeError

/-- Fuelled replacement scanner: Python `s.replace(old, new)`, all
non-overlapping occurrences left to right.  A match consumes
`p.length ≥ 1` characters while fuel drops by one, so fuel equal to the
input length is sufficient. -/
def pyReplaceAux (p r : List Char) : Nat → List Char → List Char
  | _, [] => []
  | 0, l => l
  | fuel + 1, c :: rest =>
    if leadsWith p (c :: rest) && !p.isEmpty then
      r ++ pyReplaceAux p r fuel (rest.drop (p.length - 1))
    else c :: pyReplaceAux p r fuel rest

/-- Python `s.replace(pat, rep)` (with nonempty `pat`, the only case the
module uses). -/
def pyReplace (s pat rep : String) : String :=
  String.mk (pyReplaceAux pat.toList rep.toList s.toList.length s.toList)

/-- The body branch of `set_zrefix` (lines 128–135), entered when
`content['body']` split into two parts `p0`, `p1`.  `c` is the content
dict.  Writes `zrefix` and the new body, then mirrors into
`unsigned['zrefix']`; `event_dict['unsigned']` is a bracket access, so a
missing `unsigned` key raises `KeyError` — swallowed by the enclosing
`except`, leaving the event with only the first two writes done.  An
`unsigned` that is `None` is replaced by a fresh dict; a non-dict,
non-`None` `unsigned` raises `TypeError` on item assignment (swallowed).
-/
def zrefixBodyBranch (event c : List (String × JVal)) (p0 p1 : String) :
    List (String × JVal) :=
  let e1 := dset event "zrefix" (.str (pyStrip p0))
  let e2 := dset e1 "content" (.obj (dset c "body" (.str (pyStrip p1))))
  match lookup' e2 "unsigned" with
  | none => e2
  | some .null => dset e2 "unsigned" (.obj [("zrefix", .str (pyStrip p0))])
  | some (.obj u) => dset e2 "unsigned" (.obj (dset u "zrefix" (.str (pyStrip p0))))
  | some _ => e2

/-- The formatted-body branch of `set_zrefix` (lines 137–149), entered when the
body split produced fewer than two parts.  Splits the HTML-stripped
`content['formatted_body']`; on a two-part split writes `zrefix`, mirrors
into `unsigned['zrefix']` (missing `unsigned` raises `KeyError`, swallowed,
so `formatted_body` is then left untouched), and finally rewrites
`formatted_body`: the empty string when the trimmed second part is empty,
otherwise the original formatted text with every occurrence of the
untrimmed first part followed by the delimiter removed, then stripped.
-/
def zrefixFormattedBranch (event c : List (String × JVal)) :
    List (String × JVal) :=
  match strip_html_tags ((lookup' c "formatted_body").getD (.str "")) with
  | .error _ => event
  | .ok st =>
    match splitOnce st ZREFIX_DELIMITER with
    | [q0, q1] =>
      let e1 := dset event "zrefix" (.str (pyStrip q0))
      match lookup' e1 "unsigned" with
      | none => e1
      | some v =>
        match (match v with
          | .null => some (dset e1 "unsigned" (.obj [("zrefix", .str (pyStrip q0))]))
          | .obj u => some (dset e1 "unsigned" (.obj (dset u "zrefix" (.str (pyStrip q0)))))
          | _ => none) with
        | none => e1
        | some e2 =>
          match lookup' c "formatted_body" with
          | some (.str f) =>
            let newFb : String :=
              if pyStrip q1 == "" then ""
              else pyStrip (pyReplace f (q0 ++ ZREFIX_DELIMITER) "")
            dset e2 "content" (.obj (dset c "formatted_body" (.str newFb)))
          | _ => e2
    | _ => event

/-- Embedding of `set_zrefix(event_dict)` from `overra.py`.  The whole function body is
wrapped in `try/except Exception`, so it never raises: it is modelled as a
total function returning the dict in the state it reached when an exception
was swallowed.  A non-dict `content` raises `AttributeError` on `.get`
(event unchanged); a non-string `body` raises `AttributeError` on `.split`
(event unchanged); otherwise the body split is tried first and the
formatted-body split only when the body did not contain the delimiter.
-/
def set_zrefix (event : List (String × JVal)) : List (String × JVal) :=
  match (lookup' event "content").getD (.obj []) with
  | .obj c =>
    match (lookup' c "body").getD (.str "") with
    | .str s =>
      match splitOnce s ZREFIX_DELIMITER with
      | [p0, p1] => zrefixBodyBranch event c p0 p1
      | _ => zrefixFormattedBranch event c
    | _ => event
  | _ => event

/-- The retention test of the top-level list comprehension of
`filter_search_events` (lines 93–98): keep `r` when `r['result']`'s type is
not `m.room.message`, or its AI-response marker is falsy, or its sender
equals `requester.user.to_string()` (the requesting user, module state
injected by the hosting server, passed here as `req`).  All three reads use
`.get` with defaults; a missing `result` key raises `KeyError`, a non-dict
`result` or `unsigned` raises on `.get`.
-/
def keepResult (req key : String) (r : JVal) : Except PyErr Bool :=
  match r with
  | .obj rf =>
    match lookup' rf "result" with
    | none => .error (.keyError "result")
    | some (.obj resf) =>
      if !(((lookup' resf "type").getD (.str "")).eqStr "m.room.message") then .ok true
      else
        match (lookup' resf "unsigned").getD (.obj []) with
        | .obj uf =>
          if !(((lookup' uf (AI_RESPONSE_KEY key)).getD (.str "")).truthy) then .ok true
          else .ok (((lookup' resf "sender").getD (.str "")).eqStr req)
        | _ => .error .attrError
    | some _ => .error .attrError
  | _ => .error .typeError

/-- The retention test of the context sub-list comprehensions of
`filter_search_events` (lines 102–107 and 110–115): same reduced check, but
`e['type']` and `e['sender']` are bracket accesses (missing keys raise
`KeyError`), while `unsigned` still defaults to an empty dict.
-/
def keepSubEvent (req key : String) (e : JVal) : Except PyErr Bool :=
  match e with
  | .obj ef =>
    match lookup' ef "type" with
    | none => .error (.keyError "type")
    | some ty =>
      if !(ty.eqStr "m.room.message") then .ok true
      else
        match (lookup' ef "unsigned").getD (.obj []) with
        | .obj uf =>
          if !(((lookup' uf (AI_RESPONSE_KEY key)).getD (.str "")).truthy) then .ok true
          else
            match lookup' ef "sender" with
            | none => .error (.keyError "sender")
            | some sender => .ok (sender.eqStr req)
        | _ => .error .attrError
  | _ => .error .typeError

/-- A Python list comprehension `[x for x in l if p(x)]` where the test can
raise: elements are tested left to right and the first exception aborts. -/
def filterE (p : JVal → Except PyErr Bool) : List JVal → Except PyErr (List JVal)
  | [] => .ok []
  | x :: xs =>
    match p x with
    | .error e => .error e
    | .ok b =>
      match filterE p xs with
      | .error e => .error e
      | .ok rest => .ok (if b then x :: rest else rest)

/-- A Python `for` loop transforming each element in place, left to right;
the first exception aborts. -/
def mapE (f : JVal → Except PyErr JVal) : List JVal → Except PyErr (List JVal)
  | [] => .ok []
  | x :: xs =>
    match f x with
    | .error e => .error e
    | .ok y =>
      match mapE f xs with
      | .error e => .error e
      | .ok rest => .ok (y :: rest)

/-- Embedding of one `if result["context"].get(cname, ""): result["context"][cname] = [...]`
step of `filter_search_events`: when the context entry `cname` is truthy it
must be a list (the comprehension subscripts its elements) and is replaced
by its filtered form; a falsy or absent entry is left alone.
-/
def filterCtxKey (req key cname : String) (cf : List (String × JVal)) :
    Except PyErr (List (String × JVal)) :=
  let v := (lookup' cf cname).getD (.str "")
  if v.truthy then
    match v with
    | .arr l =>
      match filterE (keepSubEvent req key) l with
      | .error e => .error e
      | .ok l' => .ok (dset cf cname (.arr l'))
    | _ => .error .typeError
  else .ok cf

/-- The body of the `for result in results` loop of `filter_search_events`:
filter `events_before`, then `events_after`, inside `result['context']`
(a bracket access: missing or non-dict `context` raises). -/
def updateContext (req key : String) (r : JVal) : Except PyErr JVal :=
  match r with
  | .obj rf =>
    match lookup' rf "context" with
    | none => .error (.keyError "context")
    | some (.obj cf) =>
      match filterCtxKey req key "events_before" cf with
      | .error e => .error e
      | .ok cf1 =>
        match filterCtxKey req key "events_after" cf1 with
        | .error e => .error e
        | .ok cf2 => .ok (.obj (dset rf "context" (.obj cf2)))
    | some _ => .error .attrError
  | _ => .error .typeError

/-- Embedding of `filter_search_events(results)` from `overra.py`: the top-level list is
filtered by the reduced check, then each retained result's two context
sub-lists are filtered by the same reduced check. -/
def filter_search_events (req key : String) (results : List JVal) :
    Except PyErr (List JVal) :=
  match filterE (keepResult req key) results with
  | .error e => .error e
  | .ok kept => mapE (updateContext req key) kept

/-- The values supporting the Python `in` operator without a `TypeError`:
lists, dicts and strings. -/
def inable : JVal → Bool
  | .arr _ => true
  | .obj _ => true
  | .str _ => true
  | _ => false

/-- A sufficient well-formedness condition under which `is_visible` cannot
raise: the event has a `type`; and when the type is the restricted message
type, `unsigned` is present as a dict, `sender` and `room_id` are present,
and a truthy restriction metadata is a dict whose `visible_to` entry (if
any) supports the `in` operator (list, dict or string).
-/
def wellFormedVisible (key : String) (event : List (String × JVal)) : Bool :=
  match lookup' event "type" with
  | none => false
  | some ty =>
    if !(ty.eqStr "m.room.message") then true
    else
      match lookup' event "unsigned" with
      | some (.obj u) =>
        (lookup' event "sender").isSome &&
        (lookup' event "room_id").isSome &&
        (!((lookup' u (METADATA_KEY key)).getD (.obj [])).truthy ||
           (match (lookup' u (METADATA_KEY key)).getD (.obj []) with
            | .obj m => inable ((lookup' m VISIBLE_TO).getD (.arr []))
            | _ => false))
      | _ => false

/-- Modelled from the spec: the reduced retention check that
`filter_search_events` is specified to apply to each entry of all three
lists — the entry's type is not the restricted message type, or it carries
no (truthy) AI-response marker under `unsigned`, or its sender equals the
requesting user.
-/
def reducedCheck (req key : String) (ef : List (String × JVal)) : Bool :=
  !(((lookup' ef "type").getD (.str "")).eqStr "m.room.message")
  || !((match (lookup' ef "unsigned").getD (.obj []) with
        | .obj uf => (lookup' uf (AI_RESPONSE_KEY key)).getD (.str "")
        | _ => .str "").truthy)
  || ((lookup' ef "sender").getD (.str "")).eqStr req

/-- The reduced check applied to a top-level search result (its event lives
under the `result` key). -/
def topKeep (req key : String) (r : JVal) : Bool :=
  match r with
  | .obj rf =>
    match lookup' rf "result" with
    | some (.obj resf) => reducedCheck req key resf
    | _ => true
  | _ => true

/-- The reduced check applied to a context sub-list entry. -/
def specKeepEvent (req key : String) (e : JVal) : Bool :=
  match e with
  | .obj ef => reducedCheck req key ef
  | _ => true

/-- Modelled from the spec: filter one context sub-list (when present as a
list) by the reduced check. -/
def specUpdateCtxKey (req key cname : String) (cf : List (String × JVal)) :
    List (String × JVal) :=
  match lookup' cf cname with
  | some (.arr l) => dset cf cname (.arr (l.filter (specKeepEvent req key)))
  | _ => cf

/-- Modelled from the spec: filter both context sub-lists of one retained
search result by the reduced check. -/
def specUpdateResult (req key : String) (r : JVal) : JVal :=
  match r with
  | .obj rf =>
    match lookup' rf "context" with
    | some (.obj cf) =>
      .obj (dset rf "context"
        (.obj (specUpdateCtxKey req key "events_after"
                 (specUpdateCtxKey req key "events_before" cf))))
    | _ => r
  | _ => r

/-- Modelled from the spec: the search-result filter as the claim states
it — retain top-level results by the reduced check, then filter each
retained result's two context sub-lists by the same reduced check. -/
def specFilterSearch (req key : String) (results : List JVal) : List JVal :=
  (results.filter (topKeep req key)).map (specUpdateResult req key)

/-- Well-formedness of a context sub-list entry: a dict with a `type`, a
`sender`, and a dict (or absent) `unsigned`. -/
def wfSubEvent (e : JVal) : Bool :=
  match e with
  | .obj ef =>
    (lookup' ef "type").isSome &&
    (match (lookup' ef "unsigned").getD (.obj []) with
     | .obj _ => true
     | _ => false) &&
    (lookup' ef "sender").isSome
  | _ => false

/-- Well-formedness of a context entry value: a list of well-formed
sub-events, or anything falsy (which the loop skips). -/
def wfCtxVal (v : JVal) : Bool :=
  match v with
  | .arr l => l.all wfSubEvent
  | _ => !v.truthy

/-- Well-formedness of a top-level search result: a dict whose `result` is
a dict with dict-or-absent `unsigned`, and whose `context` is a dict whose
`events_before` / `events_after` entries, when present, are well-formed. -/
def wfResult (r : JVal) : Bool :=
  match r with
  | .obj rf =>
    (match lookup' rf "result" with
     | some (.obj resf) =>
       (match (lookup' resf "unsigned").getD (.obj []) with
        | .obj _ => true
        | _ => false)
     | _ => false) &&
    (match lookup' rf "context" with
     | some (.obj cf) =>
       (match lookup' cf "events_before" with
        | none => true
        | some v => wfCtxVal v) &&
       (match lookup' cf "events_after" with
        | none => true
        | some v => wfCtxVal v)
     | _ => false)
  | _ => false

/-! ### Concrete instances used by witnesses and counterexamples -/

/-- The `unsigned` dict of the C2 witness event: AI-response marker set and
restriction metadata with `visible_to = ["@v:x"]` (environment key `"k"`). -/
def uC2 : List (String × JVal) :=
  [("k_ai_response", JVal.obj [("t", JVal.str "x")]),
   ("k_metadata", JVal.obj [("visible_to", JVal.arr [JVal.str "@v:x"])])]

/-- The C2 witness event: a restricted room message from `@s:x`. -/
def evC2 : List (String × JVal) :=
  [("type", JVal.str "m.room.message"), ("sender", JVal.str "@s:x"),
   ("room_id", JVal.str "!r:x"), ("unsigned", JVal.obj uC2)]

/-- The admin resolver of the C2 witness: every room has the single admin
`@adm:x`. -/
def admC2 : JVal → List String := fun _ => ["@adm:x"]

/-- The `unsigned` dict of the C3 witness event: only the AI-response
marker. -/
def uC3 : List (String × JVal) :=
  [("k_ai_response", JVal.obj [("t", JVal.str "x")])]

/-- The C3 witness event: a restricted room message from `@s:x` with no
`visible_to` list. -/
def evC3 : List (String × JVal) :=
  [("type", JVal.str "m.room.message"), ("sender", JVal.str "@s:x"),
   ("room_id", JVal.str "!r:x"), ("unsigned", JVal.obj uC3)]

/-- The admin resolver with no admins in any room. -/
def admNone : JVal → List String := fun _ => []

/-! ### Helper lemmas about dict lookup and update -/

theorem lookup'_dset_self (d : List (String × JVal)) (k : String) (v : JVal) :
    lookup' (dset d k v) k = some v := by
  induction d with
  | nil => simp [dset, lookup']
  | cons p rest ih =>
    obtain ⟨a, b⟩ := p
    by_cases ha : a = k
    · simp [dset, ha, lookup']
    · simp [dset, ha, lookup', ih]

theorem lookup'_dset_ne (d : List (String × JVal)) (k k' : String) (v : JVal)
    (h : k ≠ k') : lookup' (dset d k v) k' = lookup' d k' := by
  induction d with
  | nil => simp [dset, lookup', h]
  | cons p rest ih =>
    obtain ⟨a, b⟩ := p
    by_cases ha : a = k
    · subst ha; simp [dset, lookup', h]
    · simp [dset, ha, lookup', ih]

theorem dset_self (d : List (String × JVal)) (k : String) (v : JVal)
    (h : lookup' d k = some v) : dset d k v = d := by
  induction d with
  | nil => simp [lookup'] at h
  | cons p rest ih =>
    obtain ⟨a, b⟩ := p
    by_cases ha : a = k
    · subst ha
      simp [lookup'] at h
      simp [dset, h]
    · simp only [lookup', if_neg ha] at h
      simp [dset, ha, ih h]

theorem isEmpty_false_of_lookup' (d : List (String × JVal)) (k : String)
    (v : JVal) (h : lookup' d k = some v) : d.isEmpty = false := by
  cases d with
  | nil => simp [lookup'] at h
  | cons p rest => simp

/-! ### Claim C1 -/

/-- Claim C1 (counterexample): the claim says that an event whose `unsigned`
has no restriction-metadata key is visible to every viewer, including no
viewer.  It fails on the code: a restricted-type event whose `unsigned`
carries only the AI-response marker (and no restriction-metadata key) is
treated as restricted, and with no viewer supplied `is_visible` returns
`False`, not `True`.
-/
theorem c1_counterexample :
    lookup' [("_ai_response", JVal.obj [("t", JVal.str "x")])] (METADATA_KEY "") = none
    ∧ is_visible (fun _ => []) ""
        [("type", JVal.str "m.room.message"), ("sender", JVal.str "@s:x"),
         ("room_id", JVal.str "!r:x"),
         ("unsigned", JVal.obj [("_ai_response", JVal.obj [("t", JVal.str "x")])])]
        none
      = .ok false :=
  ⟨rfl, rfl⟩

/-- Claim C1 (amended): for every event whose `unsigned` mapping has no truthy
restriction-metadata entry *and no truthy AI-response entry*, `is_visible`
returns true for every viewer, including when no viewer identity is
supplied (events whose type is not the restricted message type are always
visible and need no condition on `unsigned`).
-/
theorem c1_unrestricted_always_visible (admins : JVal → List String)
    (key : String) (event : List (String × JVal)) (uid : Option String)
    (ty : JVal) (hty : lookup' event "type" = some ty)
    (h : ty.eqStr "m.room.message" = false
      ∨ ∃ u, lookup' event "unsigned" = some (.obj u)
          ∧ ((lookup' u (METADATA_KEY key)).getD (.obj [])).truthy = false
          ∧ ((lookup' u (AI_RESPONSE_KEY key)).getD (.obj [])).truthy = false) :
    is_visible admins key event uid = .ok true := by
  have hne : event.isEmpty = false := isEmpty_false_of_lookup' _ _ _ hty
  rcases h with h | ⟨u, hu, hm, ha⟩
  · simp [is_visible, hne, hty, h]
  · cases hmsg : ty.eqStr "m.room.message" with
    | false => simp [is_visible, hne, hty, hmsg]
    | true => simp [is_visible, hne, hty, hmsg, hu, hm, ha]

/-- Claim C1 (witness): the amended theorem applied to a concrete
restricted-type event with an empty `unsigned`, and no viewer supplied. -/
theorem c1_unrestricted_always_visible_witness :
    is_visible (fun _ => []) "k"
      [("type", JVal.str "m.room.message"), ("unsigned", JVal.obj [])] none
      = .ok true :=
  c1_unrestricted_always_visible (fun _ => []) "k" _ none _ rfl
    (Or.inr ⟨[], rfl, rfl, rfl⟩)

/-! ### Claim C2 -/

/-- Claim C2: for every restricted event (restricted message type with a truthy
restriction-metadata or AI-response entry) and every supplied viewer, each
of these is independently sufficient for `is_visible` to return true: the
viewer equals the event's sender; the viewer is in the room's admin set;
the viewer appears in the restriction metadata's `visible_to` list.
-/
theorem c2_sender_admin_visibleto_sufficient (admins : JVal → List String)
    (key : String) (event u : List (String × JVal)) (uid : String)
    (sv rv : JVal)
    (hty : lookup' event "type" = some (.str "m.room.message"))
    (hu : lookup' event "unsigned" = some (.obj u))
    (hres : (((lookup' u (METADATA_KEY key)).getD (.obj [])).truthy
          || ((lookup' u (AI_RESPONSE_KEY key)).getD (.obj [])).truthy) = true)
    (hs : lookup' event "sender" = some sv)
    (hr : lookup' event "room_id" = some rv) :
    (sv = .str uid → is_visible admins key event (some uid) = .ok true)
    ∧ ((admins rv).contains uid = true →
        is_visible admins key event (some uid) = .ok true)
    ∧ (∀ m l, (lookup' u (METADATA_KEY key)).getD (.obj []) = .obj m
        → (lookup' m VISIBLE_TO).getD (.arr []) = .arr l
        → JVal.str uid ∈ l
        → is_visible admins key event (some uid) = .ok true) := by
  have hne : event.isEmpty = false := isEmpty_false_of_lookup' _ _ _ hty
  have hmsg : (JVal.str "m.room.message").eqStr "m.room.message" = true := by
    simp [JVal.eqStr]
  have hnb : (!((lookup' u (METADATA_KEY key)).getD (.obj [])).truthy
      && !((lookup' u (AI_RESPONSE_KEY key)).getD (.obj [])).truthy) = false := by
    cases h1 : ((lookup' u (METADATA_KEY key)).getD (.obj [])).truthy <;>
      cases h2 : ((lookup' u (AI_RESPONSE_KEY key)).getD (.obj [])).truthy <;>
      simp_all
  refine ⟨?_, ?_, ?_⟩
  · intro hsv
    subst hsv
    simp [is_visible, hne, hty, hmsg, hu, hnb, hs, JVal.eqStr]
  · intro hadm
    simp at hadm
    cases hsv : sv.eqStr uid with
    | true => simp [is_visible, hne, hty, hmsg, hu, hnb, hs, hsv]
    | false => simp [is_visible, hne, hty, hmsg, hu, hnb, hs, hsv, hr, hadm]
  · intro m l hm hl hmem
    have hmt : (JVal.obj m).truthy = true := by
      cases hm0 : lookup' m VISIBLE_TO with
      | none =>
        rw [hm0] at hl
        simp only [Option.getD_none, JVal.arr.injEq] at hl
        subst hl
        simp at hmem
      | some v =>
        cases m with
        | nil => simp [lookup'] at hm0
        | cons p rest => simp [JVal.truthy]
    have hany : l.any (fun v => v.eqStr uid) = true :=
      List.any_eq_true.mpr ⟨JVal.str uid, hmem, by simp [JVal.eqStr]⟩
    cases hsv : sv.eqStr uid with
    | true => simp [is_visible, hne, hty, hmsg, hu, hnb, hs, hsv]
    | false =>
      by_cases hadm : uid ∈ admins rv
      · simp [is_visible, hne, hty, hmsg, hu, hnb, hs, hsv, hr, hadm]
      · simp [is_visible, hne, hty, hmsg, hu, hnb, hs, hsv, hr, hadm, hm, hmt,
          hl, pyIn, hany]

/-- Claim C2 (witness): a concrete restricted event (AI-response marker set,
`visible_to` list `["@v:x"]`, admin set `["@adm:x"]`, sender `@s:x`), with
the sender, an admin and a `visible_to` member each as viewer.
-/
theorem c2_sender_admin_visibleto_sufficient_witness :
    is_visible admC2 "k" evC2 (some "@s:x") = .ok true
    ∧ is_visible admC2 "k" evC2 (some "@adm:x") = .ok true
    ∧ is_visible admC2 "k" evC2 (some "@v:x") = .ok true :=
  ⟨(c2_sender_admin_visibleto_sufficient admC2 "k" evC2 uC2 "@s:x"
      (JVal.str "@s:x") (JVal.str "!r:x") rfl rfl rfl rfl rfl).1 rfl,
   (c2_sender_admin_visibleto_sufficient admC2 "k" evC2 uC2 "@adm:x"
      (JVal.str "@s:x") (JVal.str "!r:x") rfl rfl rfl rfl rfl).2.1 rfl,
   (c2_sender_admin_visibleto_sufficient admC2 "k" evC2 uC2 "@v:x"
      (JVal.str "@s:x") (JVal.str "!r:x") rfl rfl rfl rfl rfl).2.2
     [("visible_to", JVal.arr [JVal.str "@v:x"])] [JVal.str "@v:x"] rfl rfl
     (List.mem_singleton.mpr rfl)⟩

/-! ### Claim C3 -/

/-- Claim C3: for every restricted event, a viewer who is not the sender, not
in the room's admin set, and not in the `visible_to` list is denied
(`is_visible` returns false); and with no viewer supplied, `is_visible` is
false for every restricted event (fail closed).
-/
theorem c3_denied_and_fail_closed (admins : JVal → List String)
    (key : String) (event u : List (String × JVal)) (uid : String)
    (sv rv : JVal)
    (hty : lookup' event "type" = some (.str "m.room.message"))
    (hu : lookup' event "unsigned" = some (.obj u))
    (hres : (((lookup' u (METADATA_KEY key)).getD (.obj [])).truthy
          || ((lookup' u (AI_RESPONSE_KEY key)).getD (.obj [])).truthy) = true)
    (hs : lookup' event "sender" = some sv)
    (hsv : sv.eqStr uid = false)
    (hr : lookup' event "room_id" = some rv)
    (hadm : (admins rv).contains uid = false)
    (hmd : ((lookup' u (METADATA_KEY key)).getD (.obj [])).truthy = false
      ∨ ∃ m l, (lookup' u (METADATA_KEY key)).getD (.obj []) = .obj m
          ∧ (lookup' m VISIBLE_TO).getD (.arr []) = .arr l
          ∧ l.any (fun v => v.eqStr uid) = false) :
    is_visible admins key event (some uid) = .ok false
    ∧ is_visible admins key event none = .ok false := by
  have hne : event.isEmpty = false := isEmpty_false_of_lookup' _ _ _ hty
  have hmsg : (JVal.str "m.room.message").eqStr "m.room.message" = true := by
    simp [JVal.eqStr]
  have hnb : (!((lookup' u (METADATA_KEY key)).getD (.obj [])).truthy
      && !((lookup' u (AI_RESPONSE_KEY key)).getD (.obj [])).truthy) = false := by
    cases h1 : ((lookup' u (METADATA_KEY key)).getD (.obj [])).truthy <;>
      cases h2 : ((lookup' u (AI_RESPONSE_KEY key)).getD (.obj [])).truthy <;>
      simp_all
  have hadm' : ¬(uid ∈ admins rv) := by
    simp at hadm
    exact hadm
  constructor
  · rcases hmd with hmd | ⟨m, l, hm, hl, hnotmem⟩
    · have hai : ((lookup' u (AI_RESPONSE_KEY key)).getD (.obj [])).truthy = true := by
        rw [hmd] at hres
        simpa using hres
      simp [is_visible, hne, hty, hmsg, hu, hs, hsv, hr, hadm', hmd, hai]
    · cases hmt : (JVal.obj m).truthy with
      | false =>
        have hai : ((lookup' u (AI_RESPONSE_KEY key)).getD (.obj [])).truthy = true := by
          rw [hm] at hres
          rw [hmt] at hres
          simpa using hres
        simp [is_visible, hne, hty, hmsg, hu, hs, hsv, hr, hadm', hm, hmt, hai]
      | true =>
        simp [is_visible, hne, hty, hmsg, hu, hs, hsv, hr, hadm', hm, hmt,
          hl, pyIn, hnotmem]
  · simp [is_visible, hne, hty, hmsg, hu, hnb]

/-- Claim C3 (witness): a restricted event (AI-response marker, empty admin
set, no `visible_to`), viewed by a non-sender and by no viewer: both
denied.
-/
theorem c3_denied_and_fail_closed_witness :
    is_visible admNone "k" evC3 (some "@u:x") = .ok false
    ∧ is_visible admNone "k" evC3 none = .ok false :=
  c3_denied_and_fail_closed admNone "k" evC3 uC3 "@u:x"
    (JVal.str "@s:x") (JVal.str "!r:x") rfl rfl rfl rfl rfl rfl rfl
    (Or.inl rfl)

/-! ### Claim C4 -/

/-- Claim C4 (counterexample): the claim says `is_visible` never raises for any
non-empty event, including events with no `unsigned` field.  It fails on
the code: `event['unsigned']` is a bracket access, so a restricted-type
event without an `unsigned` key raises `KeyError`.
-/
theorem c4_counterexample :
    is_visible admNone "" [("type", JVal.str "m.room.message")] (some "@u:x")
      = .error (.keyError "unsigned") := rfl

/-- The operator model `pyIn` succeeds on every value supporting the `in` operator. -/
theorem pyIn_ok_of_inable (uid : String) (v : JVal) (h : inable v = true) :
    ∃ b, pyIn uid v = .ok b := by
  cases v with
  | arr l => exact ⟨_, rfl⟩
  | obj l => exact ⟨_, rfl⟩
  | str s => exact ⟨_, rfl⟩
  | num n => simp [inable] at h
  | bool b => simp [inable] at h
  | null => simp [inable] at h

/-- Claim C4 (amended): `is_visible` returns a boolean (never raises) for every
well-formed event: one with a `type`, and — when the type is the restricted
message type — an `unsigned` dict, `sender` and `room_id` fields, and
restriction metadata that is either falsy or a dict whose `visible_to`
entry supports membership tests.  (A restricted-type event missing
`unsigned` raises `KeyError`, so the unconditional claim fails.)
-/
theorem c4_returns_bool_on_wellformed (admins : JVal → List String)
    (key : String) (event : List (String × JVal)) (uid : Option String)
    (h : wellFormedVisible key event = true) :
    ∃ b, is_visible admins key event uid = .ok b := by
  unfold wellFormedVisible at h
  cases hty : lookup' event "type" with
  | none => rw [hty] at h; simp at h
  | some ty =>
    have hne := isEmpty_false_of_lookup' _ _ _ hty
    rw [hty] at h
    cases heq : ty.eqStr "m.room.message" with
    | false => exact ⟨true, by simp [is_visible, hne, hty, heq]⟩
    | true =>
      simp only [heq, Bool.not_true, Bool.false_eq_true, if_false] at h
      cases hu : lookup' event "unsigned" with
      | none => rw [hu] at h; simp at h
      | some v =>
        rw [hu] at h
        cases v with
        | str s => simp at h
        | num n => simp at h
        | bool b => simp at h
        | null => simp at h
        | arr l => simp at h
        | obj u =>
          simp at h
          obtain ⟨⟨hsender, hroom⟩, hmd⟩ := h
          cases hb : (!((lookup' u (METADATA_KEY key)).getD (.obj [])).truthy
              && !((lookup' u (AI_RESPONSE_KEY key)).getD (.obj [])).truthy) with
          | true => exact ⟨true, by simp [is_visible, hne, hty, heq, hu, hb]⟩
          | false =>
            cases uid with
            | none => exact ⟨false, by simp [is_visible, hne, hty, heq, hu, hb]⟩
            | some uidv =>
              obtain ⟨sv, hs⟩ := Option.isSome_iff_exists.mp hsender
              cases hsv : sv.eqStr uidv with
              | true =>
                exact ⟨true, by simp [is_visible, hne, hty, heq, hu, hb, hs, hsv]⟩
              | false =>
                obtain ⟨rv, hr⟩ := Option.isSome_iff_exists.mp hroom
                by_cases hadm : uidv ∈ admins rv
                · exact ⟨true,
                    by simp [is_visible, hne, hty, heq, hu, hb, hs, hsv, hr, hadm]⟩
                · rcases hmd with hmd | hmd
                  · have hai : ((lookup' u (AI_RESPONSE_KEY key)).getD
                        (.obj [])).truthy = true := by
                      rw [hmd] at hb
                      simpa using hb
                    exact ⟨false,
                      by simp [is_visible, hne, hty, heq, hu, hb, hs, hsv, hr,
                        hadm, hmd, hai]⟩
                  · cases hmv : (lookup' u (METADATA_KEY key)).getD (.obj []) with
                    | str s2 => rw [hmv] at hmd; simp at hmd
                    | num n2 => rw [hmv] at hmd; simp at hmd
                    | bool b2 => rw [hmv] at hmd; simp at hmd
                    | null => rw [hmv] at hmd; simp at hmd
                    | arr l2 => rw [hmv] at hmd; simp at hmd
                    | obj m =>
                      rw [hmv] at hmd
                      cases hmt : (JVal.obj m).truthy with
                      | false =>
                        have hai : ((lookup' u (AI_RESPONSE_KEY key)).getD
                            (.obj [])).truthy = true := by
                          rw [hmv] at hb
                          rw [hmt] at hb
                          simpa using hb
                        exact ⟨false,
                          by simp [is_visible, hne, hty, heq, hu, hb, hs, hsv,
                            hr, hadm, hmv, hmt, hai]⟩
                      | true =>
                        obtain ⟨b2, hpy⟩ := pyIn_ok_of_inable uidv _ hmd
                        cases b2 with
                        | true =>
                          exact ⟨true,
                            by simp [is_visible, hne, hty, heq, hu, hb, hs, hsv,
                              hr, hadm, hmv, hmt, hpy]⟩
                        | false =>
                          exact ⟨false,
                            by simp [is_visible, hne, hty, heq, hu, hb, hs, hsv,
                              hr, hadm, hmv, hmt, hpy]⟩

/-- Claim C4 (witness): the amended theorem applied to a concrete
well-formed restricted event and an unrelated viewer. -/
theorem c4_returns_bool_on_wellformed_witness :
    wellFormedVisible "k" evC3 = true
    ∧ ∃ b, is_visible admNone "k" evC3 (some "@u:x") = .ok b :=
  ⟨rfl, c4_returns_bool_on_wellformed admNone "k" evC3 (some "@u:x") rfl⟩

/-! ### Claim C5 -/

/-- Claim C5: `get_channel_admins` returns exactly the user ids whose level in
the power-levels document equals `100`; it returns the empty list, without
raising, when no power-levels record exists; and on the document
`{"@a:x": 100, "@b:x": 50}` it returns exactly `["@a:x"]`.
-/
theorem c5_admins_exactly_level100 :
    get_channel_admins none = []
    ∧ (∀ (doc : List (String × JVal)) (uid : String),
        uid ∈ get_channel_admins (some doc) ↔ (uid, JVal.num 100) ∈ doc)
    ∧ get_channel_admins
        (some [("@a:x", JVal.num 100), ("@b:x", JVal.num 50)]) = ["@a:x"] := by
  refine ⟨rfl, ?_, rfl⟩
  intro doc uid
  simp only [get_channel_admins, List.mem_map, List.mem_filter]
  constructor
  · rintro ⟨⟨k, v⟩, ⟨hmem, hv⟩, hk⟩
    cases v with
    | num n =>
      simp only [JVal.eqNum, beq_iff_eq] at hv
      subst hv
      subst hk
      exact hmem
    | bool b => cases b <;> simp [JVal.eqNum] at hv
    | str s => simp [JVal.eqNum] at hv
    | null => simp [JVal.eqNum] at hv
    | arr l => simp [JVal.eqNum] at hv
    | obj o => simp [JVal.eqNum] at hv
  · intro hmem
    exact ⟨(uid, JVal.num 100), ⟨hmem, by simp [JVal.eqNum]⟩, rfl⟩

/-- Claim C5 (witness): the membership characterisation applied to a
concrete document. -/
theorem c5_admins_exactly_level100_witness :
    "@a:x" ∈ get_channel_admins
      (some [("@a:x", JVal.num 100), ("@b:x", JVal.num 50)]) :=
  (c5_admins_exactly_level100.2.1 [("@a:x", JVal.num 100), ("@b:x", JVal.num 50)]
    "@a:x").mpr (List.mem_cons_self _ _)

/-! ### Claims C6, C7, C8, C10: the zrefix extractor -/

/-- On a string argument, `strip_html_tags` always succeeds and returns the
tag-stripped, whitespace-stripped text (the falsy shortcut for the empty
string agrees with the general path). -/
theorem strip_html_tags_str (f : String) :
    strip_html_tags (.str f) = .ok (pyStrip (stripTagsStr f)) := by
  unfold strip_html_tags
  by_cases h : f = ""
  · subst h; rfl
  · simp [JVal.truthy, h]

/-- The formatted-body branch preserves the presence of `content` as a dict
and the value of its `body` entry. -/
theorem zrefixFormattedBranch_body_preserved (event c : List (String × JVal))
    (hc : lookup' event "content" = some (.obj c)) :
    ∃ c2, lookup' (zrefixFormattedBranch event c) "content" = some (.obj c2)
      ∧ lookup' c2 "body" = lookup' c "body" := by
  unfold zrefixFormattedBranch
  cases hst : strip_html_tags ((lookup' c "formatted_body").getD (.str "")) with
  | error e => exact ⟨c, hc, rfl⟩
  | ok st =>
    try dsimp only
    cases hsp : splitOnce st ZREFIX_DELIMITER with
    | nil => exact ⟨c, hc, rfl⟩
    | cons q0 qrest =>
      cases qrest with
      | nil => exact ⟨c, hc, rfl⟩
      | cons q1 qrest2 =>
        cases qrest2 with
        | cons q2 qrest3 => exact ⟨c, hc, rfl⟩
        | nil =>
          try dsimp only
          have h1 : lookup' (dset event "zrefix" (.str (pyStrip q0))) "content"
              = some (.obj c) := by
            rw [lookup'_dset_ne _ "zrefix" "content" _ (by decide)]
            exact hc
          cases hu : lookup' (dset event "zrefix" (.str (pyStrip q0))) "unsigned" with
          | none => exact ⟨c, h1, rfl⟩
          | some v =>
            try dsimp only
            have hobj : ∀ u2 : List (String × JVal),
                (∃ c2, lookup'
                  (match lookup' c "formatted_body" with
                   | some (JVal.str f) =>
                     dset (dset (dset event "zrefix" (.str (pyStrip q0)))
                         "unsigned" (.obj u2)) "content"
                       (.obj (dset c "formatted_body"
                         (.str (if pyStrip q1 == "" then ""
                                else pyStrip (pyReplace f (q0 ++ ZREFIX_DELIMITER) "")))))
                   | _ => dset (dset event "zrefix" (.str (pyStrip q0)))
                       "unsigned" (.obj u2)) "content" = some (.obj c2)
                  ∧ lookup' c2 "body" = lookup' c "body") := by
              intro u2
              have h2 : lookup' (dset (dset event "zrefix" (.str (pyStrip q0)))
                  "unsigned" (.obj u2)) "content" = some (.obj c) := by
                rw [lookup'_dset_ne _ "unsigned" "content" _ (by decide)]
                exact h1
              cases hf : lookup' c "formatted_body" with
              | none => exact ⟨c, h2, rfl⟩
              | some fv =>
                cases fv with
                | str f =>
                  refine ⟨dset c "formatted_body"
                    (.str (if pyStrip q1 == "" then ""
                           else pyStrip (pyReplace f (q0 ++ ZREFIX_DELIMITER) ""))),
                    lookup'_dset_self _ _ _,
                    lookup'_dset_ne _ "formatted_body" "body" _ (by decide)⟩
                | num n3 => exact ⟨c, h2, rfl⟩
                | bool b3 => exact ⟨c, h2, rfl⟩
                | null => exact ⟨c, h2, rfl⟩
                | arr l3 => exact ⟨c, h2, rfl⟩
                | obj o3 => exact ⟨c, h2, rfl⟩
            cases v with
            | str s2 => exact ⟨c, h1, rfl⟩
            | num n2 => exact ⟨c, h1, rfl⟩
            | bool b2 => exact ⟨c, h1, rfl⟩
            | arr l2 => exact ⟨c, h1, rfl⟩
            | null => exact hobj [("zrefix", .str (pyStrip q0))]
            | obj u2 => exact hobj (dset u2 "zrefix" (.str (pyStrip q0)))

/-- Claim C6 (counterexample): the claim asserts that for *every* event whose
`content.body` contains the delimiter, `set_zrefix` also mirrors the prefix
into `unsigned.zrefix`.  It fails on the code: with no `unsigned` key the
bracket access `event_dict['unsigned']` raises `KeyError` (swallowed), so
`zrefix` is set and the body rewritten but no mirror is added — the result
has no `unsigned` entry at all.
-/
theorem c6_counterexample :
    splitOnce "tag⁂hello world" ZREFIX_DELIMITER = ["tag", "hello world"]
    ∧ set_zrefix [("content", JVal.obj [("body", JVal.str "tag⁂hello world")])]
        = [("content", JVal.obj [("body", JVal.str "hello world")]),
           ("zrefix", JVal.str "tag")]
    ∧ lookup' (set_zrefix
        [("content", JVal.obj [("body", JVal.str "tag⁂hello world")])])
        "unsigned" = none :=
  ⟨rfl, rfl, rfl⟩

/-- Claim C6 (amended): for every event whose `content.body` is a string
containing the delimiter *and which has an `unsigned` field that is a dict
or `None`*, `set_zrefix` sets `zrefix` to the part before the first
delimiter trimmed of whitespace, mirrors the same value into
`unsigned.zrefix`, and replaces `content.body` with the trimmed remainder.
-/
theorem c6_body_split_sets_and_mirrors (event c u' : List (String × JVal))
    (s p0 p1 : String)
    (hc : lookup' event "content" = some (.obj c))
    (hb : lookup' c "body" = some (.str s))
    (hsplit : splitOnce s ZREFIX_DELIMITER = [p0, p1])
    (hu : lookup' event "unsigned" = some (.obj u')
        ∨ lookup' event "unsigned" = some .null) :
    lookup' (set_zrefix event) "zrefix" = some (.str (pyStrip p0))
    ∧ (∃ c2, lookup' (set_zrefix event) "content" = some (.obj c2)
        ∧ lookup' c2 "body" = some (.str (pyStrip p1)))
    ∧ (∃ u2, lookup' (set_zrefix event) "unsigned" = some (.obj u2)
        ∧ lookup' u2 "zrefix" = some (.str (pyStrip p0))) := by
  have hred : set_zrefix event = zrefixBodyBranch event c p0 p1 := by
    simp only [set_zrefix, hc, hb, hsplit, Option.getD_some]
  rw [hred]
  simp only [zrefixBodyBranch]
  rw [lookup'_dset_ne _ "content" "unsigned" _ (by decide),
      lookup'_dset_ne _ "zrefix" "unsigned" _ (by decide)]
  rcases hu with hu | hu
  · rw [hu]
    refine ⟨?_, ⟨dset c "body" (.str (pyStrip p1)), ?_, lookup'_dset_self _ _ _⟩,
      ⟨dset u' "zrefix" (.str (pyStrip p0)), lookup'_dset_self _ _ _,
        lookup'_dset_self _ _ _⟩⟩
    · rw [lookup'_dset_ne _ "unsigned" "zrefix" _ (by decide),
          lookup'_dset_ne _ "content" "zrefix" _ (by decide)]
      exact lookup'_dset_self _ _ _
    · rw [lookup'_dset_ne _ "unsigned" "content" _ (by decide)]
      exact lookup'_dset_self _ _ _
  · rw [hu]
    refine ⟨?_, ⟨dset c "body" (.str (pyStrip p1)), ?_, lookup'_dset_self _ _ _⟩,
      ⟨[("zrefix", .str (pyStrip p0))], lookup'_dset_self _ _ _, rfl⟩⟩
    · rw [lookup'_dset_ne _ "unsigned" "zrefix" _ (by decide),
          lookup'_dset_ne _ "content" "zrefix" _ (by decide)]
      exact lookup'_dset_self _ _ _
    · rw [lookup'_dset_ne _ "unsigned" "content" _ (by decide)]
      exact lookup'_dset_self _ _ _

/-- Claim C6 (witness): the amended theorem applied to the specification's
own example, body `"tag⁂hello world"` with an empty `unsigned` dict. -/
theorem c6_body_split_sets_and_mirrors_witness :
    lookup' (set_zrefix [("content", JVal.obj [("body", JVal.str "tag⁂hello world")]),
        ("unsigned", JVal.obj [])]) "zrefix" = some (.str "tag")
    ∧ (∃ c2, lookup' (set_zrefix [("content", JVal.obj [("body", JVal.str "tag⁂hello world")]),
        ("unsigned", JVal.obj [])]) "content" = some (.obj c2)
        ∧ lookup' c2 "body" = some (.str "hello world"))
    ∧ (∃ u2, lookup' (set_zrefix [("content", JVal.obj [("body", JVal.str "tag⁂hello world")]),
        ("unsigned", JVal.obj [])]) "unsigned" = some (.obj u2)
        ∧ lookup' u2 "zrefix" = some (.str "tag")) :=
  c6_body_split_sets_and_mirrors
    [("content", JVal.obj [("body", JVal.str "tag⁂hello world")]),
     ("unsigned", JVal.obj [])]
    [("body", JVal.str "tag⁂hello world")] []
    "tag⁂hello world" "tag" "hello world" rfl rfl rfl (Or.inl rfl)

/-- Claim C7 (counterexample): the claim asserts the body is left untouched
when it contains zero *or one* occurrence of the delimiter.  It fails on
the code: `split(delim, 1)` yields two parts whenever the delimiter occurs
at least once, so a body with exactly one occurrence is rewritten and
`zrefix` is set.
-/
theorem c7_counterexample :
    splitOnce "a⁂b" ZREFIX_DELIMITER = ["a", "b"]
    ∧ containsSub ZREFIX_DELIMITER "b" = false
    ∧ set_zrefix [("content", JVal.obj [("body", JVal.str "a⁂b")]),
        ("unsigned", JVal.obj [])]
      = [("content", JVal.obj [("body", JVal.str "b")]),
         ("unsigned", JVal.obj [("zrefix", JVal.str "a")]),
         ("zrefix", JVal.str "a")] :=
  ⟨rfl, rfl, rfl⟩

/-- Claim C7 (amended): for every event whose `content.body` is a string with
*zero* occurrences of the delimiter, `set_zrefix` leaves `content.body`
untouched and sets nothing from the body branch — the whole call reduces
to the formatted-body branch alone.
-/
theorem c7_no_delimiter_body_untouched (event c : List (String × JVal))
    (s : String)
    (hc : lookup' event "content" = some (.obj c))
    (hb : lookup' c "body" = some (.str s))
    (hnd : splitOnce s ZREFIX_DELIMITER = [s]) :
    set_zrefix event = zrefixFormattedBranch event c
    ∧ ∃ c2, lookup' (set_zrefix event) "content" = some (.obj c2)
        ∧ lookup' c2 "body" = some (.str s) := by
  have hred : set_zrefix event = zrefixFormattedBranch event c := by
    simp only [set_zrefix, hc, hb, hnd, Option.getD_some]
  refine ⟨hred, ?_⟩
  rw [hred]
  obtain ⟨c2, h1, h2⟩ := zrefixFormattedBranch_body_preserved event c hc
  exact ⟨c2, h1, h2.trans hb⟩

/-- Claim C7 (witness): the amended theorem applied to a delimiter-free
body next to a formatted body that does split — the body is untouched even
though the formatted branch fires. -/
theorem c7_no_delimiter_body_untouched_witness :
    set_zrefix [("content", JVal.obj [("body", JVal.str "plain"),
        ("formatted_body", JVal.str "ft⁂rest")]), ("unsigned", JVal.obj [])]
      = zrefixFormattedBranch
        [("content", JVal.obj [("body", JVal.str "plain"),
          ("formatted_body", JVal.str "ft⁂rest")]), ("unsigned", JVal.obj [])]
        [("body", JVal.str "plain"), ("formatted_body", JVal.str "ft⁂rest")]
    ∧ ∃ c2, lookup' (set_zrefix [("content", JVal.obj [("body", JVal.str "plain"),
        ("formatted_body", JVal.str "ft⁂rest")]), ("unsigned", JVal.obj [])])
        "content" = some (.obj c2)
        ∧ lookup' c2 "body" = some (.str "plain") :=
  c7_no_delimiter_body_untouched
    [("content", JVal.obj [("body", JVal.str "plain"),
      ("formatted_body", JVal.str "ft⁂rest")]), ("unsigned", JVal.obj [])]
    [("body", JVal.str "plain"), ("formatted_body", JVal.str "ft⁂rest")]
    "plain" rfl rfl rfl

/-- Claim C8 (counterexample): the claim asserts the formatted-body split is
attempted independently of the body split, and that `formatted_body`
`"<b>tag</b>⁂<i>hi</i>"` ends up as `"<i>hi</i>"`.  It fails on the code:
the reconstruction removes the literal `"tag⁂"` from the original
formatted text, but `"tag⁂"` is not a substring of
`"<b>tag</b>⁂<i>hi</i>"` (the `</b>` sits between), so `formatted_body`
is left unchanged (merely stripped) even though `zrefix` becomes `"tag"`.
-/
theorem c8_counterexample :
    pyStrip (stripTagsStr "<b>tag</b>⁂<i>hi</i>") = "tag⁂hi"
    ∧ containsSub "tag⁂" "<b>tag</b>⁂<i>hi</i>" = false
    ∧ set_zrefix [("content", JVal.obj [("body", JVal.str "x"),
        ("formatted_body", JVal.str "<b>tag</b>⁂<i>hi</i>")]),
        ("unsigned", JVal.obj [])]
      = [("content", JVal.obj [("body", JVal.str "x"),
          ("formatted_body", JVal.str "<b>tag</b>⁂<i>hi</i>")]),
         ("unsigned", JVal.obj [("zrefix", JVal.str "tag")]),
         ("zrefix", JVal.str "tag")] :=
  ⟨rfl, rfl, rfl⟩

/-- Claim C8 (amended): only when the body split yields fewer than two parts
does `set_zrefix` split the HTML-stripped `content.formatted_body` on the
delimiter; when that yields two parts it sets `zrefix` (and the
`unsigned.zrefix` mirror) from the trimmed first part and rewrites
`formatted_body` to the empty string when the trimmed second part is
empty, and otherwise to the original formatted text with every occurrence
of the untrimmed first part followed by the delimiter removed, then
stripped — which leaves the text unchanged when that literal does not
occur in it.
-/
theorem c8_formatted_fallback (event c u' : List (String × JVal))
    (s f q0 q1 : String)
    (hc : lookup' event "content" = some (.obj c))
    (hb : lookup' c "body" = some (.str s))
    (hnd : splitOnce s ZREFIX_DELIMITER = [s])
    (hf : lookup' c "formatted_body" = some (.str f))
    (hsplit : splitOnce (pyStrip (stripTagsStr f)) ZREFIX_DELIMITER = [q0, q1])
    (hu : lookup' event "unsigned" = some (.obj u')
        ∨ lookup' event "unsigned" = some .null) :
    lookup' (set_zrefix event) "zrefix" = some (.str (pyStrip q0))
    ∧ (∃ u2, lookup' (set_zrefix event) "unsigned" = some (.obj u2)
        ∧ lookup' u2 "zrefix" = some (.str (pyStrip q0)))
    ∧ (∃ c2, lookup' (set_zrefix event) "content" = some (.obj c2)
        ∧ lookup' c2 "formatted_body"
          = some (.str (if pyStrip q1 == "" then ""
                        else pyStrip (pyReplace f (q0 ++ ZREFIX_DELIMITER) "")))) := by
  have hred : set_zrefix event = zrefixFormattedBranch event c := by
    simp only [set_zrefix, hc, hb, hnd, Option.getD_some]
  rw [hred]
  simp only [zrefixFormattedBranch, hf, Option.getD_some, strip_html_tags_str,
    hsplit]
  rw [lookup'_dset_ne _ "zrefix" "unsigned" _ (by decide)]
  rcases hu with hu | hu
  · rw [hu]
    refine ⟨?_, ⟨dset u' "zrefix" (.str (pyStrip q0)), ?_, lookup'_dset_self _ _ _⟩,
      ⟨dset c "formatted_body"
        (.str (if pyStrip q1 == "" then ""
               else pyStrip (pyReplace f (q0 ++ ZREFIX_DELIMITER) ""))),
        lookup'_dset_self _ _ _, lookup'_dset_self _ _ _⟩⟩
    · rw [lookup'_dset_ne _ "content" "zrefix" _ (by decide),
          lookup'_dset_ne _ "unsigned" "zrefix" _ (by decide)]
      exact lookup'_dset_self _ _ _
    · rw [lookup'_dset_ne _ "content" "unsigned" _ (by decide)]
      exact lookup'_dset_self _ _ _
  · rw [hu]
    refine ⟨?_, ⟨[("zrefix", .str (pyStrip q0))], ?_, rfl⟩,
      ⟨dset c "formatted_body"
        (.str (if pyStrip q1 == "" then ""
               else pyStrip (pyReplace f (q0 ++ ZREFIX_DELIMITER) ""))),
        lookup'_dset_self _ _ _, lookup'_dset_self _ _ _⟩⟩
    · rw [lookup'_dset_ne _ "content" "zrefix" _ (by decide),
          lookup'_dset_ne _ "unsigned" "zrefix" _ (by decide)]
      exact lookup'_dset_self _ _ _
    · rw [lookup'_dset_ne _ "content" "unsigned" _ (by decide)]
      exact lookup'_dset_self _ _ _

/-- Claim C8 (witness): the amended theorem applied to the specification's
example, where the prefix-plus-delimiter literal does not occur in the
original formatted text, so `formatted_body` stays unchanged while
`zrefix` is `"tag"`. -/
theorem c8_formatted_fallback_witness :
    lookup' (set_zrefix [("content", JVal.obj [("body", JVal.str "x"),
        ("formatted_body", JVal.str "<b>tag</b>⁂<i>hi</i>")]),
        ("unsigned", JVal.obj [])]) "zrefix" = some (.str "tag")
    ∧ (∃ u2, lookup' (set_zrefix [("content", JVal.obj [("body", JVal.str "x"),
        ("formatted_body", JVal.str "<b>tag</b>⁂<i>hi</i>")]),
        ("unsigned", JVal.obj [])]) "unsigned" = some (.obj u2)
        ∧ lookup' u2 "zrefix" = some (.str "tag"))
    ∧ (∃ c2, lookup' (set_zrefix [("content", JVal.obj [("body", JVal.str "x"),
        ("formatted_body", JVal.str "<b>tag</b>⁂<i>hi</i>")]),
        ("unsigned", JVal.obj [])]) "content" = some (.obj c2)
        ∧ lookup' c2 "formatted_body"
          = some (.str (if pyStrip "hi" == "" then ""
                 else pyStrip (pyReplace "<b>tag</b>⁂<i>hi</i>"
                   ("tag" ++ ZREFIX_DELIMITER) "")))) :=
  c8_formatted_fallback
    [("content", JVal.obj [("body", JVal.str "x"),
      ("formatted_body", JVal.str "<b>tag</b>⁂<i>hi</i>")]),
     ("unsigned", JVal.obj [])]
    [("body", JVal.str "x"),
     ("formatted_body", JVal.str "<b>tag</b>⁂<i>hi</i>")] []
    "x" "<b>tag</b>⁂<i>hi</i>" "tag" "hi" rfl rfl rfl rfl rfl (Or.inl rfl)

/-- Claim C10: for every event whose `content.body` contains the delimiter but
which has no `unsigned` key at all, `set_zrefix` returns normally (the
`KeyError` from `event_dict['unsigned']` is swallowed by the `except`
block) yet leaves the event partially modified: `zrefix` is set and
`content.body` rewritten, but no `unsigned.zrefix` mirror is added (the
event still has no `unsigned` entry).
-/
theorem c10_missing_unsigned_partial_modification
    (event c : List (String × JVal)) (s p0 p1 : String)
    (hc : lookup' event "content" = some (.obj c))
    (hb : lookup' c "body" = some (.str s))
    (hsplit : splitOnce s ZREFIX_DELIMITER = [p0, p1])
    (hu : lookup' event "unsigned" = none) :
    lookup' (set_zrefix event) "zrefix" = some (.str (pyStrip p0))
    ∧ (∃ c2, lookup' (set_zrefix event) "content" = some (.obj c2)
        ∧ lookup' c2 "body" = some (.str (pyStrip p1)))
    ∧ lookup' (set_zrefix event) "unsigned" = none := by
  have hred : set_zrefix event = zrefixBodyBranch event c p0 p1 := by
    simp only [set_zrefix, hc, hb, hsplit, Option.getD_some]
  rw [hred]
  simp only [zrefixBodyBranch]
  rw [lookup'_dset_ne _ "content" "unsigned" _ (by decide),
      lookup'_dset_ne _ "zrefix" "unsigned" _ (by decide)]
  rw [hu]
  refine ⟨?_, ⟨dset c "body" (.str (pyStrip p1)), ?_, lookup'_dset_self _ _ _⟩, ?_⟩
  · rw [lookup'_dset_ne _ "content" "zrefix" _ (by decide)]
    exact lookup'_dset_self _ _ _
  · exact lookup'_dset_self _ _ _
  · rw [lookup'_dset_ne _ "content" "unsigned" _ (by decide),
        lookup'_dset_ne _ "zrefix" "unsigned" _ (by decide)]
    exact hu

/-- Claim C10 (witness): the theorem applied to a concrete event with a
delimiter in the body and no `unsigned` key. -/
theorem c10_missing_unsigned_partial_modification_witness :
    lookup' (set_zrefix [("content", JVal.obj [("body", JVal.str "tag⁂hello world")])])
      "zrefix" = some (.str "tag")
    ∧ (∃ c2, lookup' (set_zrefix
        [("content", JVal.obj [("body", JVal.str "tag⁂hello world")])])
        "content" = some (.obj c2)
        ∧ lookup' c2 "body" = some (.str "hello world"))
    ∧ lookup' (set_zrefix
        [("content", JVal.obj [("body", JVal.str "tag⁂hello world")])])
        "unsigned" = none :=
  c10_missing_unsigned_partial_modification
    [("content", JVal.obj [("body", JVal.str "tag⁂hello world")])]
    [("body", JVal.str "tag⁂hello world")]
    "tag⁂hello world" "tag" "hello world" rfl rfl rfl rfl

/-! ### Claim C9: the search-result filter -/

theorem filterE_eq (p : JVal → Except PyErr Bool) (q : JVal → Bool)
    (l : List JVal) (h : ∀ x ∈ l, p x = .ok (q x)) :
    filterE p l = .ok (l.filter q) := by
  induction l with
  | nil => rfl
  | cons x xs ih =>
    have hx := h x (List.mem_cons_self x xs)
    have hxs := ih (fun y hy => h y (List.mem_cons_of_mem x hy))
    simp only [filterE, hx, hxs]
    cases hq : q x <;> simp [List.filter_cons, hq]

theorem mapE_eq (f : JVal → Except PyErr JVal) (g : JVal → JVal)
    (l : List JVal) (h : ∀ x ∈ l, f x = .ok (g x)) :
    mapE f l = .ok (l.map g) := by
  induction l with
  | nil => rfl
  | cons x xs ih =>
    have hx := h x (List.mem_cons_self x xs)
    have hxs := ih (fun y hy => h y (List.mem_cons_of_mem x hy))
    simp only [mapE, hx, hxs, List.map_cons]

/-- On a well-formed context sub-event the bracket-access retention test of
the comprehension agrees with the reduced check of the specification. -/
theorem keepSubEvent_wf (req key : String) (e : JVal)
    (h : wfSubEvent e = true) :
    keepSubEvent req key e = .ok (specKeepEvent req key e) := by
  cases e with
  | str s => simp [wfSubEvent] at h
  | num n => simp [wfSubEvent] at h
  | bool b => simp [wfSubEvent] at h
  | null => simp [wfSubEvent] at h
  | arr l => simp [wfSubEvent] at h
  | obj ef =>
    simp only [wfSubEvent, Bool.and_eq_true] at h
    obtain ⟨⟨hty, hun⟩, hsend⟩ := h
    obtain ⟨ty, hty'⟩ := Option.isSome_iff_exists.mp hty
    obtain ⟨sv, hs'⟩ := Option.isSome_iff_exists.mp hsend
    cases hu : (lookup' ef "unsigned").getD (.obj []) with
    | str s2 => rw [hu] at hun; simp at hun
    | num n2 => rw [hu] at hun; simp at hun
    | bool b2 => rw [hu] at hun; simp at hun
    | null => rw [hu] at hun; simp at hun
    | arr l2 => rw [hu] at hun; simp at hun
    | obj uf =>
      simp only [keepSubEvent, specKeepEvent, reducedCheck, hty', hu, hs',
        Option.getD_some]
      cases hmsg : ty.eqStr "m.room.message" with
      | false => simp [hmsg]
      | true =>
        cases hai : ((lookup' uf (AI_RESPONSE_KEY key)).getD (.str "")).truthy with
        | false => simp [hmsg, hai]
        | true => simp [hmsg, hai]

/-- On a well-formed top-level search result the retention test of the
top-level comprehension agrees with the reduced check applied to the
entry's `result` event. -/
theorem keepResult_wf (req key : String) (r : JVal) (h : wfResult r = true) :
    keepResult req key r = .ok (topKeep req key r) := by
  cases r with
  | str s => simp [wfResult] at h
  | num n => simp [wfResult] at h
  | bool b => simp [wfResult] at h
  | null => simp [wfResult] at h
  | arr l => simp [wfResult] at h
  | obj rf =>
    simp only [wfResult, Bool.and_eq_true] at h
    obtain ⟨h1, h2⟩ := h
    cases hres : lookup' rf "result" with
    | none => rw [hres] at h1; simp at h1
    | some v =>
      rw [hres] at h1
      cases v with
      | str s2 => simp at h1
      | num n2 => simp at h1
      | bool b2 => simp at h1
      | null => simp at h1
      | arr l2 => simp at h1
      | obj resf =>
        cases hu : (lookup' resf "unsigned").getD (.obj []) with
        | str s3 => simp [hu] at h1
        | num n3 => simp [hu] at h1
        | bool b3 => simp [hu] at h1
        | null => simp [hu] at h1
        | arr l3 => simp [hu] at h1
        | obj uf =>
          simp only [keepResult, topKeep, reducedCheck, hres, hu]
          cases hmsg : ((lookup' resf "type").getD (.str "")).eqStr
              "m.room.message" with
          | false => simp [hmsg]
          | true =>
            cases hai : ((lookup' uf (AI_RESPONSE_KEY key)).getD
                (.str "")).truthy with
            | false => simp [hmsg, hai]
            | true => simp [hmsg, hai]

/-- Filtering one context entry leaves every other key of the context dict
unchanged. -/
theorem specUpdateCtxKey_lookup_other (req key cname k2 : String)
    (cf : List (String × JVal)) (hne : cname ≠ k2) :
    lookup' (specUpdateCtxKey req key cname cf) k2 = lookup' cf k2 := by
  unfold specUpdateCtxKey
  cases hv : lookup' cf cname with
  | none => rfl
  | some vv =>
    cases vv with
    | arr l => exact lookup'_dset_ne _ _ _ _ hne
    | str s => rfl
    | num n => rfl
    | bool b => rfl
    | null => rfl
    | obj o => rfl

/-- On a well-formed context entry the comprehension step of
`filter_search_events` agrees with the reduced-check filtering of the
specification (a falsy or absent entry is skipped by both). -/
theorem filterCtxKey_eq (req key cname : String) (cf : List (String × JVal))
    (h : (match lookup' cf cname with
          | none => true
          | some v => wfCtxVal v) = true) :
    filterCtxKey req key cname cf = .ok (specUpdateCtxKey req key cname cf) := by
  cases hv : lookup' cf cname with
  | none => simp [filterCtxKey, specUpdateCtxKey, hv, JVal.truthy]
  | some v =>
    rw [hv] at h
    cases v with
    | arr l =>
      simp only [wfCtxVal] at h
      cases l with
      | nil =>
        simp only [filterCtxKey, specUpdateCtxKey, hv, Option.getD_some,
          List.filter_nil]
        rw [dset_self cf cname (.arr []) hv]
        rfl
      | cons e es =>
        have hall : ∀ x ∈ e :: es,
            keepSubEvent req key x = .ok (specKeepEvent req key x) := by
          intro x hx
          exact keepSubEvent_wf req key x (List.all_eq_true.mp h x hx)
        simp only [filterCtxKey, specUpdateCtxKey, hv, Option.getD_some,
          filterE_eq _ (specKeepEvent req key) _ hall]
        simp [JVal.truthy]
    | str s1 =>
      simp only [wfCtxVal, Bool.not_eq_true'] at h
      simp [filterCtxKey, specUpdateCtxKey, hv, h]
    | num n1 =>
      simp only [wfCtxVal, Bool.not_eq_true'] at h
      simp [filterCtxKey, specUpdateCtxKey, hv, h]
    | bool b1 =>
      simp only [wfCtxVal, Bool.not_eq_true'] at h
      simp [filterCtxKey, specUpdateCtxKey, hv, h]
    | null =>
      simp [filterCtxKey, specUpdateCtxKey, hv, JVal.truthy]
    | obj o1 =>
      simp only [wfCtxVal, Bool.not_eq_true'] at h
      simp [filterCtxKey, specUpdateCtxKey, hv, h]

/-- On a well-formed search result the context-rewriting loop body of
`filter_search_events` agrees with the specification's reduced-check
filtering of both context sub-lists. -/
theorem updateContext_wf (req key : String) (r : JVal)
    (h : wfResult r = true) :
    updateContext req key r = .ok (specUpdateResult req key r) := by
  cases r with
  | str s => simp [wfResult] at h
  | num n => simp [wfResult] at h
  | bool b => simp [wfResult] at h
  | null => simp [wfResult] at h
  | arr l => simp [wfResult] at h
  | obj rf =>
    simp only [wfResult, Bool.and_eq_true] at h
    obtain ⟨h1, h2⟩ := h
    cases hctx : lookup' rf "context" with
    | none => rw [hctx] at h2; simp at h2
    | some v =>
      rw [hctx] at h2
      cases v with
      | str s2 => simp at h2
      | num n2 => simp at h2
      | bool b2 => simp at h2
      | null => simp at h2
      | arr l2 => simp at h2
      | obj cf =>
        simp only [Bool.and_eq_true] at h2
        obtain ⟨hb, ha⟩ := h2
        have e1 := filterCtxKey_eq req key "events_before" cf hb
        have hafter : (match lookup'
            (specUpdateCtxKey req key "events_before" cf) "events_after" with
            | none => true
            | some v => wfCtxVal v) = true := by
          rw [specUpdateCtxKey_lookup_other req key "events_before"
            "events_after" cf (by decide)]
          exact ha
        have e2 := filterCtxKey_eq req key "events_after" _ hafter
        simp only [updateContext, specUpdateResult, hctx, e1, e2]

/-- Claim C9: `filter_search_events` retains each top-level search result, and
each entry of its `events_before` / `events_after` context sub-lists,
exactly when the entry's type is not the restricted message type, or it
carries no truthy AI-response marker under `unsigned`, or its sender
equals the requesting user — only this reduced check (no admin or
`visible_to` check) is applied to all three lists.  The requesting user
(`requester.user.to_string()`, module state injected by the hosting
server) is the parameter `req`.
-/
theorem c9_search_filter_reduced_check (req key : String)
    (results : List JVal) (hwf : results.all wfResult = true) :
    filter_search_events req key results
      = .ok (specFilterSearch req key results) := by
  have hall : ∀ r ∈ results, keepResult req key r = .ok (topKeep req key r) :=
    fun r hr => keepResult_wf req key r (List.all_eq_true.mp hwf r hr)
  have hmap : ∀ r ∈ results.filter (topKeep req key),
      updateContext req key r = .ok (specUpdateResult req key r) := by
    intro r hr
    exact updateContext_wf req key r
      (List.all_eq_true.mp hwf r (List.mem_of_mem_filter hr))
  simp only [filter_search_events, filterE_eq _ (topKeep req key) _ hall,
    mapE_eq _ (specUpdateResult req key) _ hmap]
  rfl

/-- Claim C9 (witness): the theorem applied to a concrete two-element
result list — the AI-marked result from another sender is dropped, the
requester's own AI-marked result is kept with its `events_before` filtered
by the same reduced check. -/
theorem c9_search_filter_reduced_check_witness :
    filter_search_events "@me:x" "k"
      [JVal.obj [("result", JVal.obj [("type", JVal.str "m.room.message"),
          ("unsigned", JVal.obj [("k_ai_response", JVal.num 1)]),
          ("sender", JVal.str "@other:x")]),
        ("context", JVal.obj [])],
       JVal.obj [("result", JVal.obj [("type", JVal.str "m.room.message"),
          ("unsigned", JVal.obj [("k_ai_response", JVal.num 1)]),
          ("sender", JVal.str "@me:x")]),
        ("context", JVal.obj [("events_before", JVal.arr
          [JVal.obj [("type", JVal.str "m.room.message"),
            ("unsigned", JVal.obj [("k_ai_response", JVal.num 1)]),
            ("sender", JVal.str "@other:x")],
           JVal.obj [("type", JVal.str "m.text"),
            ("sender", JVal.str "@other:x")]])])]]
      = .ok
      [JVal.obj [("result", JVal.obj [("type", JVal.str "m.room.message"),
          ("unsigned", JVal.obj [("k_ai_response", JVal.num 1)]),
          ("sender", JVal.str "@me:x")]),
        ("context", JVal.obj [("events_before", JVal.arr
          [JVal.obj [("type", JVal.str "m.text"),
            ("sender", JVal.str "@other:x")]])])]] :=
  c9_search_filter_reduced_check "@me:x" "k"
    [JVal.obj [("result", JVal.obj [("type", JVal.str "m.room.message"),
        ("unsigned", JVal.obj [("k_ai_response", JVal.num 1)]),
        ("sender", JVal.str "@other:x")]),
      ("context", JVal.obj [])],
     JVal.obj [("result", JVal.obj [("type", JVal.str "m.room.message"),
        ("unsigned", JVal.obj [("k_ai_response", JVal.num 1)]),
        ("sender", JVal.str "@me:x")]),
      ("context", JVal.obj [("events_before", JVal.arr
        [JVal.obj [("type", JVal.str "m.room.message"),
          ("unsigned", JVal.obj [("k_ai_response", JVal.num 1)]),
          ("sender", JVal.str "@other:x")],
         JVal.obj [("type", JVal.str "m.text"),
          ("sender", JVal.str "@other:x")]])])]] rfl

end Overra
